import Mathlib

/-!
Verification development for a static-site utility pair:
a blog-post insertion tool (`code.py`: `find_next_post_id`, `add_blog_post`)
and a sequential git command runner (`git_push_gui.py`: `GitWorker.run`).

The HTML document tree handled by the third-party parser is embedded as a
rose tree `Node`; the parser/serializer themselves (BeautifulSoup and
`prettify`) are third-party collaborators and appear as function parameters
`parse`/`render` of the file-level operation.  The file system is an
association list from path to contents, and each fallible I/O step carries a
fault-injection flag so that error paths can be examined.
-/

/-- A node of the parsed markup tree: an element with a tag name, attributes
and children, or a text node.  The root of a parsed document models
BeautifulSoup's document object (conventionally tag name `[document]`). -/
inductive Node where
  | elem (tag : String) (attrs : List (String × String)) (children : List Node)
  | text (s : String)

/-- Python `str.strip()` restricted to whitespace (the library default). -/
def pyStrip (s : String) : String :=
  String.mk (((s.data.dropWhile Char.isWhitespace).reverse.dropWhile Char.isWhitespace).reverse)

/-- Python `str.lower()` (ASCII case folding, which covers the tool's inputs). -/
def pyLower (s : String) : String :=
  String.mk (s.data.map Char.toLower)

/-- Python `str.endswith(suffix)`. -/
def pyEndsWith (s suffix : String) : Bool :=
  suffix.data.isSuffixOf s.data

/-- Python `str.split(sep)` for a one-character separator: splits on every
occurrence, keeping empty pieces, so that splitting the empty string yields
one empty piece. -/
def pySplitChar (sep : Char) (s : String) : List String :=
  (s.data.foldr
    (fun c acc =>
      match acc with
      | cur :: rest => if c = sep then [] :: cur :: rest else (c :: cur) :: rest
      | [] => [[c]])
    [[]]).map String.mk

/-- Python `int(...)` applied to a non-empty string of decimal digits. -/
def digitsVal (s : String) : Nat :=
  s.data.foldl (fun n c => n * 10 + (c.toNat - 48)) 0

/-- Python `str.startswith(p)`. -/
def pyStartsWith (s p : String) : Bool :=
  p.data.isPrefixOf s.data

/-- Drop the first `n` characters of a string (Python `s[n:]`). -/
def strDrop (s : String) (n : Nat) : String :=
  String.mk (s.data.drop n)

/-- Attribute lookup on an element's attribute list, as `tag.get(name)`:
the first binding of the name, if any. -/
def attrValue (attrs : List (String × String)) (k : String) : Option String :=
  match attrs with
  | [] => none
  | (k', v) :: rest => if k' = k then some v else attrValue rest k

/-- Attribute lookup lifted to nodes; `none` on text nodes. -/
def Node.attr (n : Node) (k : String) : Option String :=
  match n with
  | .elem _ attrs _ => attrValue attrs k
  | .text _ => none

/-- Children of a node (`[]` for text nodes). -/
def Node.children : Node → List Node
  | .elem _ _ cs => cs
  | .text _ => []

mutual

/-- All nodes of a tree in document (pre-)order: the node itself, then the
nodes of each child subtree left to right.  This is the traversal order of
the parser's `find`/`find_all`. -/
def allNodes : Node → List Node
  | .elem t a cs => .elem t a cs :: allNodesL cs
  | .text s => [.text s]

/-- All nodes of a forest in document order. -/
def allNodesL : List Node → List Node
  | [] => []
  | c :: cs => allNodes c ++ allNodesL cs

end

/-- Translation of `soup.find_all(pred)`: every node matching the predicate, in document
order. -/
def find_all (p : Node → Bool) (n : Node) : List Node :=
  (allNodes n).filter p

/-- Translation of `soup.find(pred)`: the first node matching the predicate in document
order, if any. -/
def node_find (p : Node → Bool) (n : Node) : Option Node :=
  (find_all p n).head?

mutual

/-- Replace the first node (in document order) satisfying `p` by its image
under `f`; `none` when no node matches.  This models in-place mutation of
the first `find` result: the tree is rebuilt with that one subtree
rewritten and everything else untouched. -/
def replaceFirst (p : Node → Bool) (f : Node → Node) : Node → Option Node
  | .elem t a cs =>
    if p (.elem t a cs) then some (f (.elem t a cs))
    else
      match replaceFirstL p f cs with
      | some cs' => some (.elem t a cs')
      | none => none
  | .text s => if p (.text s) then some (f (.text s)) else none

/-- Forest version of `replaceFirst`. -/
def replaceFirstL (p : Node → Bool) (f : Node → Node) : List Node → Option (List Node)
  | [] => none
  | c :: cs =>
    match replaceFirst p f c with
    | some c' => some (c' :: cs)
    | none =>
      match replaceFirstL p f cs with
      | some cs' => some (c :: cs')
      | none => none

end

/-- Match of the identifier pattern `^post\d+$` (regex at `code.py` line 14):
the literal `post` followed by one or more digits and nothing else. -/
def matches_post_pattern (s : String) : Bool :=
  pyStartsWith s ("post") && (let rest := strDrop s 4; !rest.data.isEmpty && rest.data.all Char.isDigit)

/-- Python `re.match(r'post(\d+)', s)` followed by `int(group(1))`
(`code.py` lines 17–19): an unanchored-at-the-end match at the start of the
string, whose group is the maximal leading digit run after `post`. -/
def postMatchNum (s : String) : Option Nat :=
  if pyStartsWith s ("post") then
    let ds := (strDrop s 4).data.takeWhile Char.isDigit
    if ds.isEmpty then none else some (digitsVal (String.mk ds))
  else none

/-- The filter of `soup.find_all('article', id=re.compile(r'^post\d+$'))`:
an `article` element whose `id` attribute is present and matches the
pattern. -/
def isPostArticle : Node → Bool
  | .elem t attrs _ =>
    t == ("article") &&
      (match attrValue attrs ("id") with
       | some v => matches_post_pattern v
       | none => false)
  | .text _ => false

/-- The loop body of `find_next_post_id` (`code.py` lines 15–21): read the
element's id (empty string when absent), prefix-match `post(\d+)`, and keep
the larger of the running maximum and the matched number. -/
def next_id_step (max_id : Nat) (post : Node) : Nat :=
  let post_id := (post.attr ("id")).getD ("")
  match postMatchNum post_id with
  | some current_id => if current_id > max_id then current_id else max_id
  | none => max_id

/-- Translation of `find_next_post_id` (`code.py` lines 10–22): scan every
`article` whose id matches `^post\d+$`, track the maximal numeric suffix
(the `for` loop becoming a fold of its body `next_id_step`), and return
`post` followed by that maximum plus one. -/
def find_next_post_id (soup : Node) : String :=
  let posts := find_all isPostArticle soup
  let max_id := posts.foldl next_id_step 0
  "post" ++ toString (max_id + 1)

/-- Modelled from the spec (§4.1): the numeric value of one Entry — an
`article` element whose identifier matches the literal `post` followed by
one or more digits — and `none` for any other node. -/
def entry_numeric_id? : Node → Option Nat
  | .elem t attrs _ =>
    if t = ("article") then
      (attrValue attrs ("id")).bind fun v =>
        if matches_post_pattern v then some (digitsVal (strDrop v 4)) else none
    else none
  | .text _ => none

/-- Modelled from the spec (§4.1): the numeric values of every matching
Entry of the document. -/
def entry_numeric_ids (doc : Node) : List Nat :=
  (allNodes doc).filterMap entry_numeric_id?

/-- Modelled from the spec (§4.1): the allocator's contract — the maximum
numeric value among matching entries (zero if none match), plus one,
appended to the literal `post`. -/
def spec_next_post_id (doc : Node) : String :=
  "post" ++ toString ((entry_numeric_ids doc).foldr Nat.max 0 + 1)

/-- Tag cleanup (`code.py` line 57): split the comma-separated string,
strip each piece, and keep the non-empty results. -/
def clean_tags (tags_str : String) : List String :=
  (pySplitChar (',') tags_str).filterMap fun tag =>
    let t := pyStrip tag
    if t = ("") then none else some t

/-- Filename normalization (`code.py` lines 66–67): append `.html` unless
the name already ends with it case-insensitively. -/
def normalize_post_filename (post_filename : String) : String :=
  if pyEndsWith (pyLower post_filename) (".html") then post_filename
  else post_filename ++ ".html"

/-- One rendered tag (`code.py` line 63): a `span` with class `tag`, the
lowercased tag as its `data-tag` attribute, and the original-case tag as
its display text. -/
def tag_span (tag : String) : Node :=
  .elem ("span") [(("class"), ("tag")), (("data-tag"), pyLower tag)] [.text tag]

/-- The `tags_html` string of `code.py` line 63: the span markup for each
tag joined with cosmetic whitespace, stripped at the ends. -/
def tags_html_str (tags_list : List String) : String :=
  pyStrip (String.join (tags_list.map fun tag =>
    "<span class=\"tag\" data-tag=\"" ++ pyLower tag ++ "\">" ++ tag ++ "</span>\n          "))

/-- The `new_post_html_str` template of `code.py` lines 71–85, with the
same interpolations the f-string performs. -/
def post_template (next_id data_tags_attr date_str read_time post_filename title : String)
    (tags_list : List String) (description : String) : String :=
  "<article class=\"post-card\" data-tags=\"" ++ data_tags_attr ++ "\" data-date=\"" ++ date_str
    ++ "\" id=\"" ++ next_id ++ "\">\n        <div class=\"post-meta\">\n          <span>"
    ++ date_str ++ "</span>\n          <span>•</span>\n          <span>" ++ read_time
    ++ "</span>\n        </div>\n        <h2><a href=\"" ++ post_filename ++ "\">" ++ title
    ++ "</a></h2>\n        <div class=\"post-tags\">\n          " ++ tags_html_str tags_list
    ++ "\n        </div>\n        <p class=\"post-excerpt\">\n          " ++ description
    ++ "\n        </p>\n        <a href=\"" ++ post_filename
    ++ "\" class=\"read-more\">Continue Reading <span class=\"arrow\">→</span></a>\n      </article>"

/-- The tree denoted by the `new_post_html_str` template once parsed back
into a fragment (`code.py` lines 71–85 and 91).  Purely cosmetic
whitespace-only text nodes between sibling elements are omitted; the
whitespace surrounding the excerpt text inside its paragraph is kept, since
the description is spliced verbatim between those runs. -/
def new_post_node (next_id data_tags_attr date_str read_time post_filename title : String)
    (tags_list : List String) (description : String) : Node :=
  .elem ("article")
    [(("class"), ("post-card")), (("data-tags"), data_tags_attr),
     (("data-date"), date_str), (("id"), next_id)]
    [.elem ("div") [(("class"), ("post-meta"))]
       [.elem ("span") [] [.text date_str],
        .elem ("span") [] [.text ("•")],
        .elem ("span") [] [.text read_time]],
     .elem ("h2") [] [.elem ("a") [(("href"), post_filename)] [.text title]],
     .elem ("div") [(("class"), ("post-tags"))] (tags_list.map tag_span),
     .elem ("p") [(("class"), ("post-excerpt"))]
       [.text ("\n          " ++ description ++ "\n        ")],
     .elem ("a") [(("href"), post_filename), (("class"), ("read-more"))]
       [.text ("Continue Reading "), .elem ("span") [(("class"), ("arrow"))] [.text ("→")]]]

/-- The container predicate of `soup.find('main', id='blogPosts')`
(`code.py` line 44). -/
def isMainBlogPosts : Node → Bool
  | .elem t attrs _ => t == ("main") && attrValue attrs ("id") == some ("blogPosts")
  | .text _ => false

/-- The fallback container predicate of `soup.find('main')`
(`code.py` line 47). -/
def isMain : Node → Bool
  | .elem t _ _ => t == ("main")
  | .text _ => false

/-- An `article` element, the filter of the fragment re-parse
`BeautifulSoup(new_post_html_str, ...).find('article')` (`code.py` line 91). -/
def isArticleTag : Node → Bool
  | .elem t _ _ => t == ("article")
  | .text _ => false

/-- Container lookup (`code.py` lines 43–51): first the `main` element with
id `blogPosts`; failing that, the first `main` element with a fallback flag
set (the code prints a warning in that case); `none` when neither exists. -/
def find_insertion_point (soup : Node) : Option (Node × Bool) :=
  match node_find isMainBlogPosts soup with
  | some m => some (m, false)
  | none =>
    match node_find isMain soup with
    | some m => some (m, true)
    | none => none

/-- The two insertions of `code.py` lines 95–97 on the found container:
`insert(0, new_post_soup)` then `insert(0, "\n      ")`, leaving the
cosmetic whitespace text node first and the new article right after it,
before all previous children. -/
def prepend_new_post (new_post : Node) : Node → Node
  | .elem t a cs => .elem t a (.text ("\n      ") :: new_post :: cs)
  | .text s => .text s

/-- The predicate by which the container was located: the specific one on
the primary path, the bare `main` lookup on the fallback path. -/
def container_pred (used_fallback : Bool) : Node → Bool :=
  if used_fallback then isMain else isMainBlogPosts

/-- The splice of `code.py` lines 88–97, as a tree transformation: rewrite
the first container (under the predicate that located it) by prepending the
whitespace node and the new article.  When no container matches — which
cannot happen on the path where the container was found — the tree is
returned unchanged. -/
def insert_new_post (new_post : Node) (soup : Node) (used_fallback : Bool) : Node :=
  (replaceFirst (container_pred used_fallback) (prepend_new_post new_post) soup).getD soup

example : allNodes (.elem ("a") [] [.text ("x"), .elem ("b") [] []]) =
    [.elem ("a") [] [.text ("x"), .elem ("b") [] []], .text ("x"), .elem ("b") [] []] := rfl

example : replaceFirst (fun n => n.attr ("id") == some ("z")) (fun _ => .text ("y"))
    (.elem ("a") [] [.elem ("b") [(("id"), ("z"))] []]) =
    some (.elem ("a") [] [.text ("y")]) := rfl

example : find_next_post_id (.elem ("[document]") [] []) = "post1" := rfl

example : find_next_post_id
    (.elem ("[document]") []
      [.elem ("article") [(("id"), ("post7"))] [],
       .elem ("article") [(("id"), ("post2"))] [],
       .elem ("article") [(("id"), ("postX"))] [],
       .elem ("div") [(("id"), ("post9"))] []]) = "post8" := rfl

example : clean_tags (" a, ,b , c") = [("a"), ("b"), ("c")] := rfl

example : clean_tags ("  ") = [] := rfl

example : normalize_post_filename ("post") = "post.html" := rfl

example : normalize_post_filename ("post.HTML") = "post.HTML" := rfl

/-- The file system visible to the tool: a finite map from path to file
contents, as an association list. -/
def FSys := List (String × String)

/-- Contents of the file at a path, `none` when absent (`os.path.exists`
tests the `isSome` of this). -/
def fsGet (fs : FSys) (k : String) : Option String :=
  match fs with
  | [] => none
  | (k', v) :: rest => if k = k' then some v else fsGet rest k

/-- Write a file: overwrite the binding when the path exists, create it
otherwise. -/
def fsSet (fs : FSys) (k v : String) : FSys :=
  match fs with
  | [] => [(k, v)]
  | (k', v') :: rest => if k = k' then (k, v) :: rest else (k', v') :: fsSet rest k v

/-- Fault-injection flags for the fallible I/O steps of `add_blog_post`:
the read at lines 31–35, the backup copy at line 110, and the overwrite at
lines 113–117.  A set flag means the corresponding Python call raises,
landing in the matching `except` arm.  The overwrite is
`open(html_file_path, 'w')` followed by `f.write(...)`, and the two can
fail differently: `openFails` means the `open` call itself raises
(permission error, bad path), before the file is modified; `writeFails`
means `open` succeeded — thereby truncating the file — and the write then
raised, leaving on disk only the first `writtenOnFail` characters of the
rendered text (zero for a fault before anything was flushed). -/
structure IOEnv where
  readFails : Bool
  copyFails : Bool
  openFails : Bool
  writeFails : Bool
  writtenOnFail : Nat

/-- Take the first `n` characters of a string (Python `s[:n]`): the part
of the output that reached the disk before a write fault. -/
def strTake (s : String) (n : Nat) : String :=
  String.mk (s.data.take n)

/-- Python `os.path.basename` (with `/` as separator). -/
def basename (p : String) : String :=
  match (pySplitChar ('/') p).getLast? with
  | some s => s
  | none => p

/-- The write-back block of `code.py` lines 105–121: back the file up at
`<path>.bak` by copying its current on-disk bytes, then
`open(html_file_path, 'w')` and write the rendered tree; any of the steps
raising is caught and reported as a write error.  A raising `open` leaves
the file untouched, but a successful `open` truncates it at once, so a
subsequent write fault leaves only the prefix of the rendered text that
was flushed — the original contents then survive only in the backup.
Returns the (success, message) pair and the resulting file system. -/
def write_back (render : Node → String) (env : IOEnv) (fs : FSys)
    (html_file_path content title : String) (soup2 : Node) : (Bool × String) × FSys :=
  if env.copyFails then
    ((false, "Error writing file '" ++ html_file_path ++ "': "), fs)
  else
    let fs1 := fsSet fs (html_file_path ++ ".bak") content
    if env.openFails then
      ((false, "Error writing file '" ++ html_file_path ++ "': "), fs1)
    else if env.writeFails then
      ((false, "Error writing file '" ++ html_file_path ++ "': "),
        fsSet fs1 html_file_path (strTake (render soup2) env.writtenOnFail))
    else
      ((true, "Successfully added post '" ++ title ++ "' to " ++ basename html_file_path
          ++ ".\nBackup saved as " ++ basename (html_file_path ++ ".bak")),
        fsSet fs1 html_file_path (render soup2))

/-- Steps 4–7 of `add_blog_post` (`code.py` lines 54–121), entered after
the container has been located: validate the tags, synthesize the fragment,
splice it in, and persist the result. -/
def synthesize_and_save (parse : String → Option Node) (render : Node → String)
    (env : IOEnv) (fs : FSys)
    (html_file_path content title tags_str description read_time date_str post_filename : String)
    (soup : Node) (used_fallback : Bool) : (Bool × String) × FSys :=
  let next_id := find_next_post_id soup
  let tags_list := clean_tags tags_str
  if tags_list.isEmpty then
    ((false, "Error: Please provide at least one tag."), fs)
  else
    let data_tags_attr := String.intercalate (", ") tags_list
    let fname := normalize_post_filename post_filename
    let new_post_html_str :=
      post_template next_id data_tags_attr date_str read_time fname title tags_list description
    match (parse new_post_html_str).bind (node_find isArticleTag) with
    | none =>
      ((false, "Error: Failed to create BeautifulSoup object for the new post."), fs)
    | some new_post =>
      let soup2 := insert_new_post new_post soup used_fallback
      write_back render env fs html_file_path content title soup2

/-- Translation of `add_blog_post` (`code.py` lines 24–121).  The
third-party parser and pretty-printer are the parameters `parse` (with
`none` for a parse failure) and `render`.  The result carries the
(success, message) pair the function returns, the console warnings it
prints, and the file system after the call. -/
def add_blog_post (parse : String → Option Node) (render : Node → String)
    (env : IOEnv) (fs : FSys)
    (html_file_path title tags_str description read_time date_str post_filename : String) :
    (Bool × String) × (List String × FSys) :=
  if html_file_path = ("") ∨ fsGet fs html_file_path = none then
    ((false, "Error: HTML file not found or path not specified: " ++ html_file_path), ([], fs))
  else if env.readFails then
    ((false, "Error reading file '" ++ html_file_path ++ "': "), ([], fs))
  else
    let content := (fsGet fs html_file_path).getD ("")
    match parse content with
    | none => ((false, "Error parsing HTML: "), ([], fs))
    | some soup =>
      match find_insertion_point soup with
      | none =>
        ((false, "Error: Could not find <main id='blogPosts'> tag or <main> tag."), ([], fs))
      | some (_, used_fallback) =>
        let warnings :=
          if used_fallback then
            [("Warning: Found <main> tag but not specific id='blogPosts'. Inserting into first <main>.")]
          else []
        let r := synthesize_and_save parse render env fs html_file_path content title
          tags_str description read_time date_str post_filename soup used_fallback
        (r.1, (warnings, r.2))

/-- Trimming of the description field by the GUI before it reaches the core
operation (`code.py` line 257). -/
def submitted_description (raw : String) : String :=
  pyStrip raw

/-- Outcome of launching one external command (`subprocess.Popen` plus
`communicate` at `git_push_gui.py` lines 28–29): either the process ran and
produced captured stdout, stderr and a return code, or the launch raised. -/
inductive ExecOutcome where
  | ran (stdout stderr : String) (returncode : Int)
  | raised (msg : String)

/-- A Qt signal emitted by the worker: an `output` chunk appended to the
log, a terminal `error`, or the terminal `finished` notification. -/
inductive WSignal where
  | output (s : String)
  | error (s : String)
  | finished

/-- The fixed command list of `GitWorker.run` (`git_push_gui.py` lines
20–24). -/
def git_cmds (commit_msg : String) : List (List String) :=
  [[("git"), ("add"), (".")],
   [("git"), ("commit"), ("-m"), commit_msg],
   [("git"), ("push"), ("-u"), ("origin"), ("main")]]

/-- The command loop of `GitWorker.run` (`git_push_gui.py` lines 25–40)
over an arbitrary command list, against an execution oracle `exec` giving
each command's outcome.  Returns the commands actually launched, in order,
and the emitted signals. -/
def run_cmds (ex : List String → ExecOutcome) :
    List (List String) → List (List String) × List WSignal
  | [] => ([], [.finished])
  | cmd :: rest =>
    let announce : WSignal := .output ("Running: " ++ String.intercalate (" ") cmd ++ "\n")
    match ex cmd with
    | .ran stdout stderr returncode =>
      let outs : List WSignal :=
        (if stdout ≠ ("") then [.output stdout] else []) ++
          (if stderr ≠ ("") then [.output stderr] else [])
      if returncode ≠ 0 then
        ([cmd], announce :: outs ++
          [.error ("Command " ++ String.intercalate (" ") cmd ++ " failed with exit code "
            ++ toString returncode)])
      else
        let r := run_cmds ex rest
        (cmd :: r.1, announce :: outs ++ r.2)
    | .raised msg => ([cmd], [announce, .error msg])

/-- Translation of `GitWorker.run` (`git_push_gui.py` lines 19–40): the three git commands
run through the loop. -/
def git_worker_run (ex : List String → ExecOutcome) (commit_msg : String) :
    List (List String) × List WSignal :=
  run_cmds ex (git_cmds commit_msg)

example :
    git_worker_run (fun _ => .ran ("ok") ("") 0) ("m") =
      (git_cmds ("m"),
       [.output ("Running: git add .\n"), .output ("ok"),
        .output ("Running: git commit -m m\n"), .output ("ok"),
        .output ("Running: git push -u origin main\n"), .output ("ok"), .finished]) := rfl

example :
    git_worker_run
      (fun cmd => if cmd = [("git"), ("commit"), ("-m"), ("m")] then .ran ("") ("boom") 1
        else .ran ("") ("") 0) ("m") =
      ([[("git"), ("add"), (".")], [("git"), ("commit"), ("-m"), ("m")]],
       [.output ("Running: git add .\n"),
        .output ("Running: git commit -m m\n"), .output ("boom"),
        .error ("Command git commit -m m failed with exit code 1")]) := rfl

example :
    (add_blog_post
      (fun s => if s = ("HOME")
        then some (.elem ("[document]") []
          [.elem ("main") [(("id"), ("blogPosts"))] [.elem ("article") [(("id"), ("post1"))] []]])
        else some (.elem ("article") [(("id"), ("post2"))] []))
      (fun _ => "OUT") ⟨false, false, false, false, 0⟩ [(("f.html"), ("HOME"))]
      ("f.html") ("T") ("A, b") ("D") ("2 min") ("Jan") ("hello")).1.1 = true := rfl

mutual

/-- Relation `ChangedOne m m' n n'` saying that `n'` is exactly `n` with one
occurrence of the subtree `m` replaced by `m'`: the path to the changed
subtree keeps its tags and attributes, and every sibling along it — hence
every other part of the tree — is untouched. -/
inductive ChangedOne : Node → Node → Node → Node → Prop where
  | here (m m' : Node) : ChangedOne m m' m m'
  | within {m m' : Node} {cs cs' : List Node} (t : String) (a : List (String × String))
      (h : ChangedOneL m m' cs cs') : ChangedOne m m' (.elem t a cs) (.elem t a cs')

/-- Forest version of `ChangedOne`: one child subtree is rewritten, all
other children are identical and keep their positions. -/
inductive ChangedOneL : Node → Node → List Node → List Node → Prop where
  | head {m m' c c' : Node} (cs : List Node) (h : ChangedOne m m' c c') :
      ChangedOneL m m' (c :: cs) (c' :: cs)
  | tail {m m' : Node} (c : Node) {cs cs' : List Node} (h : ChangedOneL m m' cs cs') :
      ChangedOneL m m' (c :: cs) (c :: cs')

end

mutual

/-- For any tree, either no node matches `p` and `replaceFirst` fails, or
`replaceFirst` succeeds precisely on the node `node_find` locates, changing
that one subtree and nothing else. -/
theorem replaceFirst_frame (p : Node → Bool) (f : Node → Node) :
    ∀ n : Node,
      (node_find p n = none ∧ replaceFirst p f n = none) ∨
      (∃ m n', node_find p n = some m ∧ replaceFirst p f n = some n' ∧ p m = true ∧
        ChangedOne m (f m) n n')
  | .text s => by
    cases hp : p (.text s) with
    | false =>
      exact Or.inl ⟨by simp [node_find, find_all, allNodes, hp],
        by simp [replaceFirst, hp]⟩
    | true =>
      exact Or.inr ⟨.text s, f (.text s), by simp [node_find, find_all, allNodes, hp],
        by simp [replaceFirst, hp], hp, .here _ _⟩
  | .elem t a cs => by
    cases hp : p (.elem t a cs) with
    | true =>
      exact Or.inr ⟨.elem t a cs, f (.elem t a cs),
        by simp [node_find, find_all, allNodes, hp],
        by simp [replaceFirst, hp], hp, .here _ _⟩
    | false =>
      have hfa : node_find p (.elem t a cs) = ((allNodesL cs).filter p).head? := by
        simp [node_find, find_all, allNodes, hp]
      rcases replaceFirstL_frame p f cs with ⟨h1, h2⟩ | ⟨m, cs', h1, h2, hm, hch⟩
      · refine Or.inl ⟨?_, ?_⟩
        · rw [hfa, h1]
          rfl
        · simp [replaceFirst, hp, h2]
      · exact Or.inr ⟨m, .elem t a cs', by rw [hfa]; exact h1,
          by simp [replaceFirst, hp, h2], hm, .within t a hch⟩

/-- Forest version of `replaceFirst_frame`. -/
theorem replaceFirstL_frame (p : Node → Bool) (f : Node → Node) :
    ∀ cs : List Node,
      ((allNodesL cs).filter p = [] ∧ replaceFirstL p f cs = none) ∨
      (∃ m cs', ((allNodesL cs).filter p).head? = some m ∧
        replaceFirstL p f cs = some cs' ∧ p m = true ∧ ChangedOneL m (f m) cs cs')
  | [] => Or.inl ⟨by simp [allNodesL], by simp [replaceFirstL]⟩
  | c :: cs => by
    have hsplit : (allNodesL (c :: cs)).filter p
        = (allNodes c).filter p ++ (allNodesL cs).filter p := by
      simp [allNodesL, List.filter_append]
    rcases replaceFirst_frame p f c with ⟨h1, h2⟩ | ⟨m, c', h1, h2, hm, hch⟩
    · have hcEmpty : (allNodes c).filter p = [] := by
        simpa [node_find, find_all, List.head?_eq_none_iff] using h1
      rcases replaceFirstL_frame p f cs with ⟨g1, g2⟩ | ⟨m, cs', g1, g2, hm, hch⟩
      · refine Or.inl ⟨?_, ?_⟩
        · rw [hsplit, hcEmpty, g1]
          rfl
        · simp [replaceFirstL, h2, g2]
      · refine Or.inr ⟨m, c :: cs', ?_, by simp [replaceFirstL, h2, g2], hm, .tail c hch⟩
        rw [hsplit, hcEmpty]
        simpa using g1
    · have hcHead : ((allNodes c).filter p).head? = some m := by
        simpa [node_find, find_all] using h1
      refine Or.inr ⟨m, c' :: cs, ?_, by simp [replaceFirstL, h2], hm, .head cs hch⟩
      rw [hsplit, List.head?_append_of_ne_nil]
      · exact hcHead
      · intro hnil
        rw [hnil] at hcHead
        cases hcHead

end

theorem fsGet_set_same (fs : FSys) (k v : String) : fsGet (fsSet fs k v) k = some v := by
  induction fs with
  | nil => simp [fsSet, fsGet]
  | cons hd tl ih =>
    obtain ⟨k', v'⟩ := hd
    by_cases h : k = k'
    · simp [fsSet, fsGet, h]
    · simp [fsSet, fsGet, h, ih]

theorem fsGet_set_other (fs : FSys) (k v k2 : String) (h : k2 ≠ k) :
    fsGet (fsSet fs k v) k2 = fsGet fs k2 := by
  induction fs with
  | nil => simp [fsSet, fsGet, h]
  | cons hd tl ih =>
    obtain ⟨k', v'⟩ := hd
    by_cases hk : k = k'
    · subst hk
      simp [fsSet, fsGet, h]
    · by_cases hk2 : k2 = k'
      · simp [fsSet, fsGet, hk, hk2]
      · simp [fsSet, fsGet, hk, hk2, ih]

theorem bak_ne_self (s : String) : s ++ ".bak" ≠ s := by
  intro h
  have hlen := congrArg String.length h
  rw [String.length_append] at hlen
  have h4 : (".bak" : String).length = 4 := rfl
  rw [h4] at hlen
  omega

theorem self_ne_bak (s : String) : s ≠ s ++ ".bak" :=
  fun h => bak_ne_self s h.symm

theorem length_pos_append (s t : String) (h : 0 < s.length) : 0 < (s ++ t).length := by
  rw [String.length_append]
  omega

theorem container_pred_elem {fb : Bool} {m : Node} (h : container_pred fb m = true) :
    ∃ a cs, m = Node.elem ("main") a cs := by
  cases m with
  | text s => cases fb <;> simp [container_pred, isMain, isMainBlogPosts] at h
  | elem t a cs =>
    have ht : t = ("main") := by
      cases fb with
      | false =>
        simp [container_pred, isMainBlogPosts] at h
        exact h.1
      | true =>
        simp [container_pred, isMain] at h
        exact h
    exact ⟨a, cs, by rw [ht]⟩

/-- C2: after a successful splice, the container found by the lookup
predicate is rewritten so that its children are the cosmetic whitespace
text node, then the newly synthesized entry — making the entry the first
element child, preceded by the whitespace node — followed by all previous
children in their original order with unchanged identifiers; `ChangedOne`
guarantees that no other part of the document tree is altered. -/
theorem splice_prepends_entry_and_preserves_rest (new_post soup : Node) (fb : Bool) (m : Node)
    (hfind : node_find (container_pred fb) soup = some m) :
    ∃ a cs, m = Node.elem ("main") a cs ∧
      ChangedOne (Node.elem ("main") a cs)
        (Node.elem ("main") a (.text ("\n      ") :: new_post :: cs))
        soup (insert_new_post new_post soup fb) := by
  rcases replaceFirst_frame (container_pred fb) (prepend_new_post new_post) soup with
    ⟨h1, _⟩ | ⟨m', n', h1, h2, hm, hch⟩
  · rw [hfind] at h1
    cases h1
  · rw [hfind] at h1
    injection h1 with h1
    subst h1
    obtain ⟨a, cs, rfl⟩ := container_pred_elem hm
    refine ⟨a, cs, rfl, ?_⟩
    have hins : insert_new_post new_post soup fb = n' := by
      simp [insert_new_post, h2]
    rw [hins]
    simpa [prepend_new_post] using hch

/-- A sample new entry used to instantiate hypotheses at concrete inputs. -/
def sampleEntry : Node := .elem ("article") [(("id"), ("post2"))] []

/-- A sample container holding one pre-existing entry. -/
def sampleMain : Node :=
  .elem ("main") [(("id"), ("blogPosts"))] [.elem ("article") [(("id"), ("post1"))] []]

/-- A sample document whose root models the parser's document object. -/
def sampleDoc : Node := .elem ("[document]") [] [sampleMain]

/-- Witness for C2: the splice theorem applied to a concrete document whose
container holds one pre-existing entry. -/
theorem splice_prepends_entry_witness :
    ∃ a cs, sampleMain = Node.elem ("main") a cs ∧
      ChangedOne (Node.elem ("main") a cs)
        (Node.elem ("main") a (.text ("\n      ") :: sampleEntry :: cs))
        sampleDoc (insert_new_post sampleEntry sampleDoc false) :=
  splice_prepends_entry_and_preserves_rest sampleEntry sampleDoc false sampleMain (by rfl)

/-- C5: the container lookup tries the `main` element with id `blogPosts`
first; only when that is absent does it fall back to the first `main`
element, flagging the fallback (the code prints a warning exactly when the
flag is set, captured by the warnings component); when neither exists the
whole operation fails with the structural error message, leaving the file
system — hence also any backup — untouched. -/
theorem container_lookup_fallback_and_failure (soup : Node) :
    (∀ m, node_find isMainBlogPosts soup = some m →
      find_insertion_point soup = some (m, false)) ∧
    (node_find isMainBlogPosts soup = none →
      ∀ m, node_find isMain soup = some m → find_insertion_point soup = some (m, true)) ∧
    (find_insertion_point soup = none →
      ∀ parse render env fs html_file_path title tags_str description read_time date_str
        post_filename c,
        ¬ html_file_path = ("") → fsGet fs html_file_path = some c → env.readFails = false →
        parse c = some soup →
        add_blog_post parse render env fs html_file_path title tags_str description read_time
            date_str post_filename =
          ((false, "Error: Could not find <main id='blogPosts'> tag or <main> tag."),
            ([], fs))) ∧
    (∀ m, find_insertion_point soup = some (m, true) →
      ∀ parse render env fs html_file_path title tags_str description read_time date_str
        post_filename c,
        ¬ html_file_path = ("") → fsGet fs html_file_path = some c → env.readFails = false →
        parse c = some soup →
        (add_blog_post parse render env fs html_file_path title tags_str description read_time
            date_str post_filename).2.1 =
          [("Warning: Found <main> tag but not specific id='blogPosts'. Inserting into first <main>.")]) := by
  refine ⟨?_, ?_, ?_, ?_⟩
  · intro m h
    simp [find_insertion_point, h]
  · intro h m h2
    simp [find_insertion_point, h, h2]
  · intro h parse render env fs html_file_path title tags_str description read_time date_str
      post_filename c hpath hget hread hparse
    simp [add_blog_post, hpath, hget, hread, hparse, h]
  · intro m h parse render env fs html_file_path title tags_str description read_time date_str
      post_filename c hpath hget hread hparse
    simp [add_blog_post, hpath, hget, hread, hparse, h]

/-- A sample document containing no `main` element at all. -/
def sampleNoMain : Node := .elem ("[document]") [] [.elem ("div") [] []]

/-- Witness for C5: on a concrete document with no container the operation
fails with the structural error and the file system is unchanged. -/
theorem container_lookup_witness :
    add_blog_post (fun _ => some sampleNoMain) (fun _ => "OUT") ⟨false, false, false, false, 0⟩
        [(("f.html"), ("HOME"))] ("f.html") ("T") ("A") ("D") ("R") ("J") ("h") =
      ((false, "Error: Could not find <main id='blogPosts'> tag or <main> tag."),
        ([], [(("f.html"), ("HOME"))])) :=
  (container_lookup_fallback_and_failure sampleNoMain).2.2.1 (by rfl)
    (fun _ => some sampleNoMain) (fun _ => "OUT") ⟨false, false, false, false, 0⟩
    [(("f.html"), ("HOME"))] ("f.html") ("T") ("A") ("D") ("R") ("J") ("h") ("HOME")
    (by decide) (by rfl) rfl rfl

/-- C4: whenever splitting the tag string on commas, trimming, and
discarding empties leaves nothing, the operation fails and the file system
is exactly as before — no backup, no overwrite; and on any run that
actually reaches the validation step (file present, read and parse fine,
container found) the reported message is the validation error. -/
theorem empty_tags_validation_error (parse : String → Option Node) (render : Node → String)
    (env : IOEnv) (fs : FSys)
    (html_file_path title tags_str description read_time date_str post_filename : String)
    (hempty : clean_tags tags_str = []) :
    ((add_blog_post parse render env fs html_file_path title tags_str description read_time
        date_str post_filename).1.1 = false ∧
      (add_blog_post parse render env fs html_file_path title tags_str description read_time
        date_str post_filename).2.2 = fs) ∧
    (∀ c soup, ¬ html_file_path = ("") → fsGet fs html_file_path = some c →
      env.readFails = false → parse c = some soup → find_insertion_point soup ≠ none →
      (add_blog_post parse render env fs html_file_path title tags_str description read_time
          date_str post_filename).1.2 = "Error: Please provide at least one tag.") := by
  constructor
  · unfold add_blog_post
    simp only [synthesize_and_save, hempty]
    repeat' split
    all_goals simp_all
  · intro c soup hpath hget hread hparse hfip
    cases hf : find_insertion_point soup with
    | none => exact absurd hf hfip
    | some pr =>
      obtain ⟨m, fb⟩ := pr
      simp [add_blog_post, hpath, hget, hread, hparse, hf, synthesize_and_save, hempty]

/-- Witness for C4: a tag string that cleans to the empty list on a fully
healthy run yields exactly the validation error message. -/
theorem empty_tags_validation_witness :
    (add_blog_post (fun _ => some sampleDoc) (fun _ => "OUT") ⟨false, false, false, false, 0⟩
        [(("f.html"), ("HOME"))] ("f.html") ("T") (" , ") ("D") ("R") ("J") ("h")).1.2 =
      "Error: Please provide at least one tag." :=
  (empty_tags_validation_error (fun _ => some sampleDoc) (fun _ => "OUT") ⟨false, false, false, false, 0⟩
      [(("f.html"), ("HOME"))] ("f.html") ("T") (" , ") ("D") ("R") ("J") ("h") (by rfl)).2
    ("HOME") sampleDoc (by decide) (by rfl) rfl rfl
    (by intro h; exact Option.noConfusion h)

theorem some_getD_of_ne_none {o : Option String} (d : String) (h : ¬ o = none) :
    some (o.getD d) = o := by
  cases o with
  | none => exact absurd rfl h
  | some a => rfl

/-- C3: whenever the operation reports success, the sibling `<path>.bak`
file holds exactly the bytes the document file held before the call —
regardless of any previous backup at that path, which is thereby
overwritten; and whenever the backup copy step fails, the operation
reports failure and the file system is completely unchanged, so the
original is never written. -/
theorem backup_copied_before_overwrite (parse : String → Option Node) (render : Node → String)
    (env : IOEnv) (fs : FSys)
    (html_file_path title tags_str description read_time date_str post_filename : String) :
    ((add_blog_post parse render env fs html_file_path title tags_str description read_time
        date_str post_filename).1.1 = true →
      fsGet (add_blog_post parse render env fs html_file_path title tags_str description
          read_time date_str post_filename).2.2 (html_file_path ++ ".bak") =
        fsGet fs html_file_path) ∧
    (env.copyFails = true →
      (add_blog_post parse render env fs html_file_path title tags_str description read_time
          date_str post_filename).1.1 = false ∧
      (add_blog_post parse render env fs html_file_path title tags_str description read_time
          date_str post_filename).2.2 = fs) := by
  simp only [add_blog_post, synthesize_and_save, write_back]
  repeat' split
  all_goals refine ⟨fun hsucc => ?_, fun hcopy => ?_⟩
  all_goals simp_all [fsGet_set_same, fsGet_set_other, bak_ne_self, self_ne_bak,
    some_getD_of_ne_none]

/-- A sample fragment standing for the re-parsed new-post markup. -/
def sampleFrag : Node := .elem ("article") [(("id"), ("post2"))] []

/-- A sample parser: the home page content parses to `sampleDoc`, any other
string (the synthesized fragment) to `sampleFrag`. -/
def sampleParse : String → Option Node :=
  fun s => if s = ("HOME") then some sampleDoc else some sampleFrag

/-- A sample serializer. -/
def sampleRender : Node → String := fun _ => "OUT"

/-- A sample file system holding the home page. -/
def sampleFS : FSys := [(("f.html"), ("HOME"))]

/-- Witness for C3: on a concrete fault-free run the operation succeeds and
the backup file holds the pre-call contents of the document file. -/
theorem backup_copied_witness :
    fsGet (add_blog_post sampleParse sampleRender ⟨false, false, false, false, 0⟩ sampleFS
        ("f.html") ("T") ("A, b") ("D") ("R") ("J") ("h")).2.2 ("f.html" ++ ".bak") =
      fsGet sampleFS ("f.html") :=
  (backup_copied_before_overwrite sampleParse sampleRender ⟨false, false, false, false, 0⟩ sampleFS
    ("f.html") ("T") ("A, b") ("D") ("R") ("J") ("h")).1 (by rfl)

/-- Counterexample to C6 as stated: on a concrete run whose final write
fails after the file was opened — `open(path, 'w')` having truncated it —
the operation reports failure, yet the document file no longer holds its
previous contents (it is empty where it held `HOME`), so the original is
modified and the overwrite is not atomic from the caller's perspective. -/
theorem write_failure_truncates_original :
    (add_blog_post sampleParse sampleRender ⟨false, false, false, true, 0⟩ sampleFS
        ("f.html") ("T") ("A, b") ("D") ("R") ("J") ("h")).1.1 = false ∧
    fsGet sampleFS ("f.html") = some ("HOME") ∧
    fsGet (add_blog_post sampleParse sampleRender ⟨false, false, false, true, 0⟩ sampleFS
        ("f.html") ("T") ("A, b") ("D") ("R") ("J") ("h")).2.2 ("f.html") = some ("") ∧
    ¬ fsGet (add_blog_post sampleParse sampleRender ⟨false, false, false, true, 0⟩ sampleFS
        ("f.html") ("T") ("A, b") ("D") ("R") ("J") ("h")).2.2 ("f.html") =
      fsGet sampleFS ("f.html") := by
  refine ⟨rfl, rfl, rfl, fun h => ?_⟩
  rw [show fsGet (add_blog_post sampleParse sampleRender ⟨false, false, false, true, 0⟩ sampleFS
      ("f.html") ("T") ("A, b") ("D") ("R") ("J") ("h")).2.2 ("f.html") = some ("") from rfl,
    show fsGet sampleFS ("f.html") = some ("HOME") from rfl] at h
  exact absurd (Option.some.inj h) (by decide)

/-- C6 (amended): the operation never lets a fault escape — every run
returns a tagged success/failure result with a non-empty message.  When
the overwrite's `open` call is what fails, the document file is left
unmodified, with the backup present for faults after the copy step.  When
the write itself fails, however, the file has already been truncated by
`open`, so it is left holding only the prefix of the rendered output that
reached the disk — not its previous contents: the overwrite is not atomic,
and recovery relies on the `<path>.bak` backup, which does hold exactly
the pre-call bytes. -/
theorem result_tagged_and_write_failure_backup (parse : String → Option Node)
    (render : Node → String) (env : IOEnv) (fs : FSys)
    (html_file_path title tags_str description read_time date_str post_filename : String) :
    0 < (add_blog_post parse render env fs html_file_path title tags_str description read_time
        date_str post_filename).1.2.length ∧
    (env.openFails = true →
      (add_blog_post parse render env fs html_file_path title tags_str description read_time
          date_str post_filename).1.1 = false ∧
      fsGet (add_blog_post parse render env fs html_file_path title tags_str description
          read_time date_str post_filename).2.2 html_file_path = fsGet fs html_file_path ∧
      ((add_blog_post parse render env fs html_file_path title tags_str description read_time
          date_str post_filename).2.2 = fs ∨
        fsGet (add_blog_post parse render env fs html_file_path title tags_str description
            read_time date_str post_filename).2.2 (html_file_path ++ ".bak") =
          fsGet fs html_file_path)) ∧
    (env.writeFails = true →
      (add_blog_post parse render env fs html_file_path title tags_str description read_time
          date_str post_filename).1.1 = false ∧
      ((add_blog_post parse render env fs html_file_path title tags_str description read_time
          date_str post_filename).2.2 = fs ∨
        (fsGet (add_blog_post parse render env fs html_file_path title tags_str description
            read_time date_str post_filename).2.2 (html_file_path ++ ".bak") =
          fsGet fs html_file_path ∧
         (fsGet (add_blog_post parse render env fs html_file_path title tags_str description
            read_time date_str post_filename).2.2 html_file_path = fsGet fs html_file_path ∨
          ∃ d, fsGet (add_blog_post parse render env fs html_file_path title tags_str
              description read_time date_str post_filename).2.2 html_file_path =
            some (strTake (render d) env.writtenOnFail))))) := by
  simp only [add_blog_post, synthesize_and_save, write_back]
  repeat' split
  all_goals refine ⟨?_, fun hopen => ?_, fun hwrite => ?_⟩
  all_goals try (repeat' apply length_pos_append)
  all_goals try norm_num [String.length]
  all_goals try (simp_all [fsGet_set_same, fsGet_set_other, bak_ne_self, self_ne_bak,
    some_getD_of_ne_none])
  all_goals exact Or.inr (Or.inr ⟨_, rfl⟩)

/-- Witness for the amended C6 on a concrete run whose write step fails
after the open truncated the file: the result is a failure, the backup
holds the old contents, and the document file holds a prefix of the
rendered output. -/
theorem write_failure_backup_witness :
    (add_blog_post sampleParse sampleRender ⟨false, false, false, true, 0⟩ sampleFS
        ("f.html") ("T") ("A, b") ("D") ("R") ("J") ("h")).1.1 = false ∧
    ((add_blog_post sampleParse sampleRender ⟨false, false, false, true, 0⟩ sampleFS
        ("f.html") ("T") ("A, b") ("D") ("R") ("J") ("h")).2.2 = sampleFS ∨
      (fsGet (add_blog_post sampleParse sampleRender ⟨false, false, false, true, 0⟩ sampleFS
          ("f.html") ("T") ("A, b") ("D") ("R") ("J") ("h")).2.2 ("f.html" ++ ".bak") =
        fsGet sampleFS ("f.html") ∧
       (fsGet (add_blog_post sampleParse sampleRender ⟨false, false, false, true, 0⟩ sampleFS
          ("f.html") ("T") ("A, b") ("D") ("R") ("J") ("h")).2.2 ("f.html") =
        fsGet sampleFS ("f.html") ∨
        ∃ d, fsGet (add_blog_post sampleParse sampleRender ⟨false, false, false, true, 0⟩
            sampleFS ("f.html") ("T") ("A, b") ("D") ("R") ("J") ("h")).2.2 ("f.html") =
          some (strTake (sampleRender d) 0)))) :=
  (result_tagged_and_write_failure_backup sampleParse sampleRender
    ⟨false, false, false, true, 0⟩ sampleFS
    ("f.html") ("T") ("A, b") ("D") ("R") ("J") ("h")).2.2 rfl

theorem isPostArticle_spec {n : Node} (h : isPostArticle n = true) :
    ∃ attrs cs v, n = Node.elem ("article") attrs cs ∧ attrValue attrs ("id") = some v ∧
      matches_post_pattern v = true := by
  cases n with
  | text s => simp [isPostArticle] at h
  | elem t attrs cs =>
    rw [isPostArticle, Bool.and_eq_true, beq_iff_eq] at h
    obtain ⟨ht, hmatch⟩ := h
    subst ht
    cases hv : attrValue attrs ("id") with
    | none =>
      rw [hv] at hmatch
      cases hmatch
    | some v =>
      rw [hv] at hmatch
      exact ⟨attrs, cs, v, rfl, hv, hmatch⟩

theorem takeWhile_of_all {p : Char → Bool} : ∀ l : List Char, l.all p = true → l.takeWhile p = l := by
  intro l h
  induction l with
  | nil => rfl
  | cons c l ih =>
    rw [List.all_cons, Bool.and_eq_true] at h
    simp [List.takeWhile_cons, h.1, ih h.2]

theorem postMatchNum_of_matches {v : String} (h : matches_post_pattern v = true) :
    postMatchNum v = some (digitsVal (strDrop v 4)) := by
  rw [matches_post_pattern, Bool.and_eq_true, Bool.and_eq_true] at h
  obtain ⟨h1, h2, h3⟩ := h
  rw [Bool.not_eq_true'] at h2
  simp [postMatchNum, h1, takeWhile_of_all _ h3, h2]

theorem nat_max_step (a x r : Nat) : Nat.max (if x > a then x else a) r = Nat.max a (Nat.max x r) := by
  simp only [Nat.max]
  repeat' split
  all_goals omega

theorem nat_zero_max (n : Nat) : Nat.max 0 n = n := by
  show max 0 n = n
  omega

theorem foldl_track_max : ∀ (l : List Nat) (a : Nat),
    l.foldl (fun m x => if x > m then x else m) a = Nat.max a (l.foldr Nat.max 0) := by
  intro l
  induction l with
  | nil =>
    intro a
    simp only [List.foldl_nil, List.foldr_nil]
    show a = max a 0
    omega
  | cons x l ih =>
    intro a
    rw [List.foldl_cons, ih, List.foldr_cons, nat_max_step]

/-- The numeric suffix the loop reads off a matching entry. -/
def post_id_num (post : Node) : Nat :=
  digitsVal (strDrop ((post.attr ("id")).getD ("")) 4)

theorem next_id_step_on_post {post : Node} (h : isPostArticle post = true) (a : Nat) :
    next_id_step a post = if post_id_num post > a then post_id_num post else a := by
  obtain ⟨attrs, cs, v, rfl, hid, hmatch⟩ := isPostArticle_spec h
  have hattr : ((Node.elem ("article") attrs cs).attr ("id")).getD ("") = v := by
    simp [Node.attr, hid]
  rw [next_id_step, post_id_num, hattr, postMatchNum_of_matches hmatch]

theorem foldl_posts_eq : ∀ (l : List Node), (∀ x ∈ l, isPostArticle x = true) → ∀ (a : Nat),
    l.foldl next_id_step a = (l.map post_id_num).foldl (fun m x => if x > m then x else m) a := by
  intro l
  induction l with
  | nil => intro _ a; rfl
  | cons c l ih =>
    intro hall a
    rw [List.foldl_cons, List.map_cons, List.foldl_cons,
      next_id_step_on_post (hall c (List.mem_cons_self c l))]
    exact ih (fun x hx => hall x (List.mem_cons_of_mem _ hx)) _

theorem entry_numeric_id?_pointwise (n : Node) :
    entry_numeric_id? n = if isPostArticle n then some (post_id_num n) else none := by
  cases n with
  | text s => simp [entry_numeric_id?, isPostArticle]
  | elem t attrs cs =>
    by_cases ht : t = ("article")
    · subst ht
      cases hv : attrValue attrs ("id") with
      | none => simp [entry_numeric_id?, isPostArticle, hv]
      | some v =>
        cases hm : matches_post_pattern v <;>
          simp [entry_numeric_id?, isPostArticle, hv, hm, post_id_num, Node.attr]
    · simp [entry_numeric_id?, isPostArticle, ht]

theorem entry_numeric_ids_eq (doc : Node) :
    entry_numeric_ids doc = (find_all isPostArticle doc).map post_id_num := by
  rw [entry_numeric_ids, find_all]
  generalize allNodes doc = l
  induction l with
  | nil => rfl
  | cons n l ih =>
    rw [List.filterMap_cons, List.filter_cons, entry_numeric_id?_pointwise n]
    cases hp : isPostArticle n with
    | false => simpa [hp] using ih
    | true => simp [hp, ih]

/-- C1: the identifier allocator of the source agrees with the spec's
contract on every document — it returns the literal `post` followed by one
plus the maximum numeric value among `article` entries whose identifier
matches `post` followed by one or more digits, the maximum being zero when
no entry matches (so an entry-free document yields `post1`); non-matching
identifiers and non-`article` elements contribute nothing and never cause
an error, the allocator being a total function. -/
theorem find_next_post_id_eq_spec (doc : Node) :
    find_next_post_id doc = spec_next_post_id doc := by
  have hall : ∀ x ∈ find_all isPostArticle doc, isPostArticle x = true := by
    intro x hx
    rw [find_all] at hx
    exact List.of_mem_filter hx
  rw [find_next_post_id, spec_next_post_id, entry_numeric_ids_eq,
    foldl_posts_eq (find_all isPostArticle doc) hall 0, foldl_track_max]
  rw [nat_zero_max]

/-- The rendered tag-list container of the fragment: a `div` with class
`post-tags`. -/
def isPostTagsDiv : Node → Bool
  | .elem t attrs _ => t == ("div") && attrValue attrs ("class") == some ("post-tags")
  | .text _ => false

/-- The body-excerpt paragraph of the fragment: a `p` with class
`post-excerpt`. -/
def isPostExcerpt : Node → Bool
  | .elem t attrs _ => t == ("p") && attrValue attrs ("class") == some ("post-excerpt")
  | .text _ => false

/-- The call-to-action link of the fragment: an `a` with class `read-more`. -/
def isReadMore : Node → Bool
  | .elem t attrs _ => t == ("a") && attrValue attrs ("class") == some ("read-more")
  | .text _ => false

/-- An element with the given tag name. -/
def isTagName (tg : String) : Node → Bool
  | .elem t _ _ => t == tg
  | .text _ => false

/-- The children of the first rendered tag-list container of an entry. -/
def post_tags_children (e : Node) : Option (List Node) :=
  (node_find isPostTagsDiv e).map Node.children

/-- The text of the first body-excerpt paragraph of an entry, when that
paragraph holds a single text node. -/
def excerpt_text (e : Node) : Option String :=
  (node_find isPostExcerpt e).bind fun n =>
    match n.children with
    | [.text s] => some s
    | _ => none

/-- The link target of the first anchor inside the first heading of an
entry. -/
def heading_href (e : Node) : Option String :=
  ((node_find (isTagName ("h2")) e).bind (node_find (isTagName ("a")))).bind
    fun n => n.attr ("href")

/-- The link target of the first call-to-action anchor of an entry. -/
def read_more_href (e : Node) : Option String :=
  (node_find isReadMore e).bind fun n => n.attr ("href")

theorem filter_tag_spans_nil (p : Node → Bool)
    (hspan : ∀ t : String, p (tag_span t) = false)
    (htext : ∀ s : String, p (.text s) = false) :
    ∀ tags : List String, (allNodesL (tags.map tag_span)).filter p = [] := by
  intro tags
  induction tags with
  | nil => rfl
  | cons t ts ih =>
    rw [List.map_cons,
      show allNodesL (tag_span t :: ts.map tag_span)
        = allNodes (tag_span t) ++ allNodesL (ts.map tag_span) from rfl,
      List.filter_append, ih,
      show allNodes (tag_span t) = [tag_span t, .text t] from rfl]
    simp [List.filter_cons, hspan t, htext t]

/-- C7: in the synthesized entry built from a non-empty cleaned tag list,
the machine-readable `data-tags` attribute is the tags joined by a comma
and space in the supplied order with original casing, and the rendered
tag-list body holds exactly one `span` per tag, in the same order, each
carrying the lowercased tag as its `data-tag` value and the original-case
tag as its display text. -/
theorem tags_rendered_in_order (next_id date_str read_time post_filename title
    description : String) (tags_list : List String) (hne : tags_list ≠ []) :
    (new_post_node next_id (String.intercalate (", ") tags_list) date_str read_time post_filename
        title tags_list description).attr ("data-tags") =
      some (String.intercalate (", ") tags_list) ∧
    post_tags_children (new_post_node next_id (String.intercalate (", ") tags_list) date_str
        read_time post_filename title tags_list description) =
      some (tags_list.map tag_span) ∧
    ∀ t : String, (tag_span t).attr ("data-tag") = some (pyLower t) ∧
      (tag_span t).children = [Node.text t] := by
  refine ⟨?_, ?_, fun t => ⟨rfl, rfl⟩⟩
  · simp [new_post_node, Node.attr, attrValue]
  · have hspans := filter_tag_spans_nil isPostTagsDiv (fun t => rfl) (fun s => rfl) tags_list
    simp [post_tags_children, node_find, find_all, new_post_node, allNodes, allNodesL,
      List.filter_append, List.filter_cons, isPostTagsDiv, tag_span, Node.children, attrValue,
      hspans]

/-- Witness for C7 at the spec's example tags `A, b`. -/
theorem tags_rendered_witness :
    (new_post_node ("post1") (String.intercalate (", ") [("A"), ("b")]) ("Jan 01, 2025")
        ("2 min read") ("hello.html") ("Hello") [("A"), ("b")] ("World")).attr ("data-tags") =
      some (String.intercalate (", ") [("A"), ("b")]) ∧
    post_tags_children (new_post_node ("post1") (String.intercalate (", ") [("A"), ("b")])
        ("Jan 01, 2025") ("2 min read") ("hello.html") ("Hello") [("A"), ("b")] ("World")) =
      some ([("A"), ("b")].map tag_span) ∧
    ∀ t : String, (tag_span t).attr ("data-tag") = some (pyLower t) ∧
      (tag_span t).children = [Node.text t] :=
  tags_rendered_in_order ("post1") ("Jan 01, 2025") ("2 min read") ("hello.html") ("Hello")
    ("World") [("A"), ("b")] (by simp)

/-- C8: the filename placed in both the heading link and the
call-to-action link of the synthesized entry is the normalized one, and
normalization appends `.html` exactly when the name does not already end
with it under a case-insensitive check, leaving it unchanged otherwise. -/
theorem filename_normalized_in_links (next_id data_tags_attr date_str read_time title
    description : String) (tags_list : List String) (post_filename : String) :
    (pyEndsWith (pyLower post_filename) (".html") = false →
      normalize_post_filename post_filename = post_filename ++ ".html") ∧
    (pyEndsWith (pyLower post_filename) (".html") = true →
      normalize_post_filename post_filename = post_filename) ∧
    heading_href (new_post_node next_id data_tags_attr date_str read_time
        (normalize_post_filename post_filename) title tags_list description) =
      some (normalize_post_filename post_filename) ∧
    read_more_href (new_post_node next_id data_tags_attr date_str read_time
        (normalize_post_filename post_filename) title tags_list description) =
      some (normalize_post_filename post_filename) := by
  refine ⟨fun h => ?_, fun h => ?_, ?_, ?_⟩
  · simp [normalize_post_filename, h]
  · simp [normalize_post_filename, h]
  · have hspans := filter_tag_spans_nil (isTagName ("h2")) (fun t => rfl) (fun s => rfl) tags_list
    simp [heading_href, node_find, find_all, new_post_node, allNodes, allNodesL,
      List.filter_append, List.filter_cons, isTagName, Node.attr, attrValue, hspans]
  · have hspans := filter_tag_spans_nil isReadMore (fun t => rfl) (fun s => rfl) tags_list
    simp [read_more_href, node_find, find_all, new_post_node, allNodes, allNodesL,
      List.filter_append, List.filter_cons, isReadMore, Node.attr, attrValue, hspans]

/-- Witness for C8 at the spec's examples: `post` gains the suffix while
`post.HTML` is left unchanged, and the heading link carries the normalized
name. -/
theorem filename_normalized_witness :
    normalize_post_filename ("post") = "post" ++ ".html" ∧
    normalize_post_filename ("post.HTML") = "post.HTML" ∧
    heading_href (new_post_node ("post1") ("A") ("Jan") ("2 min")
        (normalize_post_filename ("post")) ("T") [("A")] ("D")) =
      some (normalize_post_filename ("post")) :=
  ⟨(filename_normalized_in_links ("post1") ("A") ("Jan") ("2 min") ("T") ("D") [("A")]
      ("post")).1 (by rfl),
   (filename_normalized_in_links ("post1") ("A") ("Jan") ("2 min") ("T") ("D") [("A")]
      ("post.HTML")).2.1 (by rfl),
   (filename_normalized_in_links ("post1") ("A") ("Jan") ("2 min") ("T") ("D") [("A")]
      ("post")).2.2.1⟩

/-- C9: the body-excerpt paragraph of the synthesized entry holds the
description exactly as supplied by the submitting layer — which strips
leading and trailing whitespace — between two fixed cosmetic whitespace
runs, so the trimmed description appears verbatim, internal formatting
included. -/
theorem excerpt_contains_description (next_id data_tags_attr date_str read_time post_filename
    title : String) (tags_list : List String) (raw : String) :
    excerpt_text (new_post_node next_id data_tags_attr date_str read_time post_filename title
        tags_list (submitted_description raw)) =
      some ("\n          " ++ pyStrip raw ++ "\n        ") ∧
    ∃ a b : String, ("\n          " ++ pyStrip raw ++ "\n        ") = a ++ pyStrip raw ++ b := by
  refine ⟨?_, ⟨("\n          "), ("\n        "), rfl⟩⟩
  have hspans := filter_tag_spans_nil isPostExcerpt (fun t => rfl) (fun s => rfl) tags_list
  simp [excerpt_text, node_find, find_all, new_post_node, allNodes, allNodesL,
    List.filter_append, List.filter_cons, isPostExcerpt, Node.children, attrValue,
    submitted_description, hspans]

/-- The `Running: ...` log line the worker emits before launching a command
(`git_push_gui.py` line 26). -/
def announce_sig (cmd : List String) : WSignal :=
  .output ("Running: " ++ String.intercalate (" ") cmd ++ "\n")

/-- The output signals a command's captured streams produce
(`git_push_gui.py` lines 30–33): stdout first, then stderr, each only when
non-empty; a launch that raised produced no streams. -/
def cmd_outputs : ExecOutcome → List WSignal
  | .ran stdout stderr _ =>
    (if stdout ≠ ("") then [.output stdout] else []) ++
      (if stderr ≠ ("") then [.output stderr] else [])
  | .raised _ => []

/-- The terminal error signal a failing command produces
(`git_push_gui.py` lines 34–38): the exit-code message for a non-zero
exit, the exception text for a raised fault, nothing for a clean exit. -/
def fail_sig (cmd : List String) : ExecOutcome → Option WSignal
  | .ran _ _ returncode =>
    if returncode ≠ 0 then
      some (.error ("Command " ++ String.intercalate (" ") cmd ++ " failed with exit code "
        ++ toString returncode))
    else none
  | .raised msg => some (.error msg)

/-- A command outcome counting as success for the loop: it ran and exited
with code zero. -/
def cmd_ok : ExecOutcome → Bool
  | .ran _ _ returncode => returncode == 0
  | .raised _ => false

theorem run_cmds_all_ok (ex : List String → ExecOutcome) :
    ∀ cmds : List (List String), (∀ c ∈ cmds, cmd_ok (ex c) = true) →
      run_cmds ex cmds =
        (cmds, cmds.flatMap (fun c => announce_sig c :: cmd_outputs (ex c)) ++ [.finished]) := by
  intro cmds
  induction cmds with
  | nil => intro _; rfl
  | cons c cs ih =>
    intro hall
    have hc := hall c (List.mem_cons_self c cs)
    have ihr := ih (fun x hx => hall x (List.mem_cons_of_mem _ hx))
    cases hex : ex c with
    | raised m =>
      rw [hex] at hc
      cases hc
    | ran stdout stderr returncode =>
      rw [hex] at hc
      rw [cmd_ok, beq_iff_eq] at hc
      subst hc
      simp [run_cmds, hex, ihr, announce_sig, cmd_outputs]

theorem run_cmds_first_failure (ex : List String → ExecOutcome) :
    ∀ (pre : List (List String)) (c : List String) (post : List (List String)),
      (∀ c' ∈ pre, cmd_ok (ex c') = true) → cmd_ok (ex c) = false →
      ∃ e, fail_sig c (ex c) = some e ∧
        run_cmds ex (pre ++ c :: post) =
          (pre ++ [c],
            pre.flatMap (fun c' => announce_sig c' :: cmd_outputs (ex c')) ++
              announce_sig c :: (cmd_outputs (ex c) ++ [e])) := by
  intro pre
  induction pre with
  | nil =>
    intro c post _ hfail
    cases hex : ex c with
    | ran stdout stderr returncode =>
      rw [hex] at hfail
      rw [cmd_ok] at hfail
      have hrc : ¬ returncode = 0 := by
        intro h
        rw [h] at hfail
        cases hfail
      refine ⟨.error ("Command " ++ String.intercalate (" ") c ++ " failed with exit code "
        ++ toString returncode), ?_, ?_⟩
      · simp [fail_sig, hrc]
      · rw [List.nil_append]
        simp [run_cmds, hex, announce_sig, cmd_outputs, hrc]
    | raised m =>
      refine ⟨.error m, by simp [fail_sig], ?_⟩
      rw [List.nil_append]
      simp [run_cmds, hex, announce_sig, cmd_outputs]
  | cons p pre ih =>
    intro c post hall hfail
    have hp := hall p (List.mem_cons_self p pre)
    obtain ⟨e, he1, he2⟩ := ih c post (fun x hx => hall x (List.mem_cons_of_mem _ hx)) hfail
    refine ⟨e, he1, ?_⟩
    cases hex : ex p with
    | raised m =>
      rw [hex] at hp
      cases hp
    | ran stdout stderr returncode =>
      rw [hex] at hp
      rw [cmd_ok, beq_iff_eq] at hp
      subst hp
      rw [List.cons_append]
      simp [run_cmds, hex, he2, announce_sig, cmd_outputs]

/-- C10: the worker's command list is exactly `git add .`,
`git commit -m <message>`, `git push -u origin main`, in that order; when
every command exits zero they are all launched in order, each one's
captured stdout and stderr are reported after its announcement, and the
run ends with the `finished` signal and no error; when a first failure
occurs (non-zero exit or raised fault) after a prefix of clean exits, the
commands launched are exactly that prefix plus the failing command, the
trace ends with the single error signal carrying that command's failure
(the exit-code message for a non-zero exit), and no later command runs and
no `finished` signal is emitted. -/
theorem git_worker_sequential_short_circuit (ex : List String → ExecOutcome)
    (commit_msg : String) :
    git_cmds commit_msg =
      [[("git"), ("add"), (".")],
       [("git"), ("commit"), ("-m"), commit_msg],
       [("git"), ("push"), ("-u"), ("origin"), ("main")]] ∧
    ((∀ c ∈ git_cmds commit_msg, cmd_ok (ex c) = true) →
      git_worker_run ex commit_msg =
        (git_cmds commit_msg,
          (git_cmds commit_msg).flatMap (fun c => announce_sig c :: cmd_outputs (ex c)) ++
            [.finished])) ∧
    (∀ pre c post, git_cmds commit_msg = pre ++ c :: post →
      (∀ c' ∈ pre, cmd_ok (ex c') = true) → cmd_ok (ex c) = false →
      ∃ e, fail_sig c (ex c) = some e ∧
        git_worker_run ex commit_msg =
          (pre ++ [c],
            pre.flatMap (fun c' => announce_sig c' :: cmd_outputs (ex c')) ++
              announce_sig c :: (cmd_outputs (ex c) ++ [e]))) := by
  refine ⟨rfl, ?_, ?_⟩
  · intro hall
    exact run_cmds_all_ok ex (git_cmds commit_msg) hall
  · intro pre c post hsplit hall hfail
    rw [git_worker_run, hsplit]
    exact run_cmds_first_failure ex pre c post hall hfail

/-- Witness for C10: a run where every command exits zero produces the
three announcements with their outputs and the final `finished` signal. -/
theorem git_worker_sequential_witness :
    git_worker_run (fun _ => .ran ("ok") ("") 0) ("m") =
      (git_cmds ("m"),
        (git_cmds ("m")).flatMap
          (fun c => announce_sig c :: cmd_outputs ((fun _ => ExecOutcome.ran ("ok") ("") 0) c)) ++
          [.finished]) :=
  (git_worker_sequential_short_circuit (fun _ => .ran ("ok") ("") 0) ("m")).2.1
    (fun c _ => rfl)
